import Mathlib

/-!
Verification of the tool-augmented conversation engine of `ggbot`
(`plugins/ai/mcp_manager.go`, `plugins/ai/tool_executor.go`, `plugins/ai/llm.go`).

The Go code is shallowly embedded: each Go struct becomes a Lean structure,
each method a pure function. External effects (the MCP transport call made by
`executeToolCall`, the HTTP generation call made by `Generate`, the JSON
unmarshalling of tool arguments, the per-session `session.Close()` result, and
the wall clock) are passed in as explicit oracle functions, so that every
method's observable control flow and state updates are the code's own.
Go maps are modelled as association lists; the pointer sharing between
`MCPManager.sessions` and `MCPManager.toolMap` (both hold `*mcpSession`)
is modelled by keying sessions by their name and letting `toolMap` map a tool
name to the owning session's name. Errors built with `fmt.Errorf` are modelled
as structured error values carrying exactly the data the format string embeds.
-/

namespace GGBot

/-- Association-list lookup, modelling a Go map read `m[k]`. -/
def lookupAssoc {α : Type} : List (String × α) → String → Option α
  | [], _ => none
  | (k, v) :: rest, key => if k = key then some v else lookupAssoc rest key

/-- Association-list update, modelling a Go map write `m[k] = v` for a key
that is already present (every binding of `key` is replaced by `v`). -/
def setAssoc {α : Type} : List (String × α) → String → α → List (String × α)
  | [], _, _ => []
  | (k, x) :: rest, key, v =>
      (if k = key then (key, v) else (k, x)) :: setAssoc rest key v

/-- `ToolCallFunction` from llm.go: the function name and raw argument JSON. -/
structure ToolCallFunction where
  name : String
  arguments : String
deriving DecidableEq

/-- `ToolCall` from llm.go. -/
structure ToolCall where
  id : String
  type : String
  function : ToolCallFunction
deriving DecidableEq

/-- `ChatMessage` from llm.go. `toolCalls = []` models a nil/empty slice and
`toolCallID = ""` the zero value. -/
structure ChatMessage where
  role : String
  content : String
  toolCalls : List ToolCall
  toolCallID : String
deriving DecidableEq

/-- `Function` from llm.go; `parameters` (a `json.RawMessage`) is kept as its
raw text. -/
structure Function where
  name : String
  description : String
  parameters : String
deriving DecidableEq

/-- `ToolDefinition` from llm.go. -/
structure ToolDefinition where
  type : String
  function : Function
deriving DecidableEq

/-- `mcpSession` from mcp_manager.go. The fields that are handles to external
resources (`session`, `config`, `cmd`, the mutex) do not influence the
bookkeeping logic being verified and are not represented; the transport call
they enable enters `CallTool` as an oracle argument. `lastUsed` is an abstract
timestamp. -/
structure mcpSession where
  name : String
  lastUsed : Nat
  failCount : Nat
  closed : Bool
deriving DecidableEq

/-- `MCPManager` from mcp_manager.go. `sessions` keys a session by its name;
`toolMap` maps a tool name to the *name* of the owning session, standing for
the Go pointer into the same `mcpSession` objects. -/
structure MCPManager where
  sessions : List (String × mcpSession)
  toolMap : List (String × String)
  tools : List ToolDefinition
deriving DecidableEq

/-- Errors produced by `MCPManager.CallTool`, mirroring its three
`fmt.Errorf` sites: `"tool not found: %s"`, `"session closed for tool: %s"`,
and `"tool call failed after %d attempts: %w"` (which wraps the last
underlying error). -/
inductive CallToolError where
  | toolNotFound (toolName : String)
  | sessionClosed (toolName : String)
  | invocationFailed (attempts : Nat) (lastErr : String)
deriving DecidableEq

/-- Observable trace of one `CallTool` run: how many attempts executed and
the durations (milliseconds) of the `time.Sleep` calls, in order. -/
structure CallTrace where
  attempts : Nat
  sleeps : List Nat
deriving DecidableEq

/-- `const maxRetries = 2` in `MCPManager.CallTool`. -/
def maxRetries : Nat := 2

/-- The retry loop body of `MCPManager.CallTool`
(`for attempt := 0; attempt < maxRetries; attempt++`), with
`fuel = maxRetries - attempt` making the bound structural.
`attemptResult i` is the outcome of `m.executeToolCall` on attempt `i`
(the external MCP transport call); `now` models `time.Now()`.
On success: `lastUsed = now`, `failCount = 0`, return the result.
On failure: `failCount++`, remember the error, retry after sleeping
`attempt * 500` ms (only before attempts with `attempt > 0`).
On exhaustion: error wrapping the last attempt's error. -/
def callToolLoop (attemptResult : Nat → Except String String) (now : Nat) :
    Nat → Nat → mcpSession → String →
    Except CallToolError String × mcpSession × CallTrace
  | 0, _, sess, lastErr =>
      (Except.error (CallToolError.invocationFailed maxRetries lastErr), sess,
        { attempts := 0, sleeps := [] })
  | fuel + 1, attempt, sess, _lastErr =>
      let sleeps := if 0 < attempt then [attempt * 500] else []
      match attemptResult attempt with
      | Except.ok result =>
          (Except.ok result, { sess with lastUsed := now, failCount := 0 },
            { attempts := 1, sleeps := sleeps })
      | Except.error err =>
          let next := callToolLoop attemptResult now fuel (attempt + 1)
            { sess with failCount := sess.failCount + 1 } err
          (next.1, next.2.1,
            { attempts := next.2.2.attempts + 1,
              sleeps := sleeps ++ next.2.2.sleeps })

/-- `MCPManager.CallTool`: look the tool up in `toolMap` (miss ⇒ not-found
error), fail fast if the owning session is closed, otherwise run the bounded
retry loop and write the updated session back. The `none` case of the inner
session lookup cannot arise from the Go code (the tool map points into the
session map); it is mapped to the not-found error. -/
def MCPManager.CallTool (m : MCPManager) (toolName : String)
    (attemptResult : Nat → Except String String) (now : Nat) :
    Except CallToolError String × MCPManager × CallTrace :=
  match lookupAssoc m.toolMap toolName with
  | none => (Except.error (CallToolError.toolNotFound toolName), m,
      { attempts := 0, sleeps := [] })
  | some sessName =>
      match lookupAssoc m.sessions sessName with
      | none => (Except.error (CallToolError.toolNotFound toolName), m,
          { attempts := 0, sleeps := [] })
      | some sess =>
          if sess.closed then
            (Except.error (CallToolError.sessionClosed toolName), m,
              { attempts := 0, sleeps := [] })
          else
            let r := callToolLoop attemptResult now maxRetries 0 sess ""
            (r.1, { m with sessions := setAssoc m.sessions sessName r.2.1 },
              r.2.2)

/-- `MCPManager.GetTools`. -/
def MCPManager.GetTools (m : MCPManager) : List ToolDefinition :=
  m.tools

/-- `MCPManager.Close`: close every still-open session (collecting any error
from the per-session `session.Close()`, modelled by the oracle `closeErr`),
then reset `sessions`, `toolMap` and `tools` to empty. The Go method returns
a combined error iff the collected list is non-empty; the list itself is
returned here. -/
def MCPManager.Close (m : MCPManager) (closeErr : String → Option String) :
    List (String × String) × MCPManager :=
  let errs := m.sessions.filterMap fun p =>
    if p.2.closed then none else (closeErr p.1).map fun e => (p.1, e)
  (errs, { sessions := [], toolMap := [], tools := [] })

/-- `MCPManager.HealthCheck`: `isHealthy := !sess.closed && sess.failCount < 5`
for every session, keyed by provider name. -/
def MCPManager.HealthCheck (m : MCPManager) : List (String × Bool) :=
  m.sessions.map fun p => (p.1, !p.2.closed && decide (p.2.failCount < 5))

/-- The arguments of a tool call after `json.Unmarshal` into
`map[string]interface{}`; the JSON values are kept abstractly as their raw
renderings, which is all the executor ever forwards. -/
abbrev ArgsMap : Type := List (String × String)

/-- Errors surfaced by `ToolExecutor.ExecuteWithTools`, mirroring its
`fmt.Errorf` sites: `"generation error at iteration %d: %w"`,
the error forwarded from `executeToolCalls`, and
`"exceeded maximum iterations (%d) without final response"`. -/
inductive ExecError where
  | generationError (iteration : Nat) (err : String)
  | toolExec (err : String)
  | iterationsExceeded (maxIterations : Nat)
deriving DecidableEq

/-- The external collaborators of a `ToolExecutor` run, as oracles:
`generate` is `Generate(baseURL, apiKey, model, messages, tools)` from llm.go
(the HTTP call, returning one assistant message or an error string);
`parseArgs` is `json.Unmarshal` on an arguments payload;
`callTool` is the observable result of `e.manager.CallTool`;
`tools` is what `e.manager.GetTools()` returns. -/
structure ExecEnv where
  generate : List ChatMessage → List ToolDefinition → Except String ChatMessage
  parseArgs : String → Except String ArgsMap
  callTool : String → ArgsMap → Except String String
  tools : List ToolDefinition

/-- `ToolExecutor.executeToolCalls`: for each tool call in order, parse its
arguments (a parse failure becomes the content of the tool-role reply and the
loop continues), otherwise invoke the tool (a failure becomes an error string
as content), and append exactly one tool-role message carrying the call's id.
The function's `error` result models the Go method's `error` return value,
which is always `nil`. -/
def executeToolCalls (env : ExecEnv) :
    List ToolCall → List ChatMessage → Except String (List ChatMessage)
  | [], messages => Except.ok messages
  | call :: rest, messages =>
      match env.parseArgs call.function.arguments with
      | Except.error err =>
          executeToolCalls env rest (messages ++
            [{ role := "tool", toolCallID := call.id,
               content := "Error parsing arguments: " ++ err, toolCalls := [] }])
      | Except.ok args =>
          let contentStr :=
            match env.callTool call.function.name args with
            | Except.ok s => s
            | Except.error err => "Error executing tool: " ++ err
          executeToolCalls env rest (messages ++
            [{ role := "tool", toolCallID := call.id,
               content := contentStr, toolCalls := [] }])

/-- The single user message built for the final-formatting pass:
`fmt.Sprintf("%s\n\n请按照以下要求重新组织你的回复：%s", finalContent, platformPrompt)`. -/
def formatRequest (finalContent platformPrompt : String) : ChatMessage :=
  { role := "user",
    content := finalContent ++ "\n\n请按照以下要求重新组织你的回复：" ++ platformPrompt,
    toolCalls := [], toolCallID := "" }

/-- The iteration loop of `ToolExecutor.ExecuteWithTools`
(`for i := 0; i < maxIterations; i++`), with `fuel = maxIterations - i` making
the bound structural. Alongside the Go function's result it returns the number
of `Generate` calls made and the final state of the `messages` transcript, the
observables the specification talks about. A model turn without tool calls is
final: if a platform prompt is configured and the content is non-empty, one
extra tool-free generation restyles it, its failure being swallowed in favour
of the unformatted content; otherwise the content is returned as is. A turn
with tool calls goes through `executeToolCalls` and the loop continues. -/
def execLoop (env : ExecEnv) (platformPrompt : String) (maxIterations : Nat) :
    Nat → Nat → List ChatMessage → Nat →
    Except ExecError String × Nat × List ChatMessage
  | 0, _, messages, genCalls =>
      (Except.error (ExecError.iterationsExceeded maxIterations), genCalls,
        messages)
  | fuel + 1, i, messages, genCalls =>
      match env.generate messages env.tools with
      | Except.error err =>
          (Except.error (ExecError.generationError i err), genCalls + 1,
            messages)
      | Except.ok respMsg =>
          let messages2 := messages ++ [respMsg]
          if respMsg.toolCalls.isEmpty then
            let finalContent := respMsg.content
            if platformPrompt ≠ "" ∧ finalContent ≠ "" then
              match env.generate [formatRequest finalContent platformPrompt] [] with
              | Except.error _ => (Except.ok finalContent, genCalls + 2, messages2)
              | Except.ok finalResp =>
                  (Except.ok finalResp.content, genCalls + 2, messages2)
            else
              (Except.ok finalContent, genCalls + 1, messages2)
          else
            match executeToolCalls env respMsg.toolCalls messages2 with
            | Except.error err =>
                (Except.error (ExecError.toolExec err), genCalls + 1, messages2)
            | Except.ok messages3 =>
                execLoop env platformPrompt maxIterations fuel (i + 1)
                  messages3 (genCalls + 1)

/-- `ToolExecutor.ExecuteWithTools`: a non-positive `maxIterations` is
replaced by the default 5, the caller's transcript is copied (value semantics
here), and the loop runs from iteration 0. -/
def ExecuteWithTools (env : ExecEnv) (initialMessages : List ChatMessage)
    (maxIterations : Int) (platformPrompt : String) :
    Except ExecError String × Nat × List ChatMessage :=
  let maxIter : Nat := (if maxIterations ≤ 0 then 5 else maxIterations).toNat
  execLoop env platformPrompt maxIter maxIter 0 initialMessages 0

/-- The content of the tool-role reply `executeToolCalls` produces for one
tool call: its per-iteration body abstracted as a function of the call. -/
def toolCallResult (env : ExecEnv) (call : ToolCall) : String :=
  match env.parseArgs call.function.arguments with
  | Except.error err => "Error parsing arguments: " ++ err
  | Except.ok args =>
      match env.callTool call.function.name args with
      | Except.ok s => s
      | Except.error err => "Error executing tool: " ++ err

/-- The tool-role message `executeToolCalls` appends for one tool call. -/
def toolResultMessage (env : ExecEnv) (call : ToolCall) : ChatMessage :=
  { role := "tool", toolCallID := call.id,
    content := toolCallResult env call, toolCalls := [] }

/-! Concrete instances used to evaluate the theorems on closed inputs. -/

/-- A freshly connected, open session. -/
def sessDemo : mcpSession :=
  { name := "srv", lastUsed := 0, failCount := 0, closed := false }

/-- An open session that has accumulated 5 consecutive failures. -/
def sessDemo5 : mcpSession :=
  { name := "srv", lastUsed := 0, failCount := 5, closed := false }

/-- A registry with one provider `srv` owning one tool `search`. -/
def mgrDemo : MCPManager :=
  { sessions := [("srv", sessDemo)], toolMap := [("search", "srv")],
    tools := [] }

/-- The same registry after 5 consecutive failures on `srv`. -/
def mgrDemo5 : MCPManager :=
  { sessions := [("srv", sessDemo5)], toolMap := [("search", "srv")],
    tools := [] }

/-- A transport on which every attempt fails. -/
def alwaysFail : Nat → Except String String :=
  fun _ => Except.error "dial timeout"

/-- A transport on which every attempt succeeds. -/
def alwaysOk : Nat → Except String String :=
  fun _ => Except.ok "result"

/-- A demo tool catalog entry. -/
def toolDefDemo : ToolDefinition :=
  { type := "function",
    function := { name := "search", description := "web search",
                  parameters := "" } }

/-- A demo tool call issued by the model. -/
def toolCallDemo : ToolCall :=
  { id := "call-1", type := "function",
    function := { name := "search", arguments := "" } }

/-- An assistant turn that requests one tool. -/
def toolCallMsg : ChatMessage :=
  { role := "assistant", content := "", toolCalls := [toolCallDemo],
    toolCallID := "" }

/-- A final assistant turn with no tool calls. -/
def finalMsgDemo : ChatMessage :=
  { role := "assistant", content := "done", toolCalls := [], toolCallID := "" }

/-- A model endpoint that requests a tool on every generation. -/
def envAlwaysTool : ExecEnv :=
  { generate := fun _ _ => Except.ok toolCallMsg,
    parseArgs := fun _ => Except.ok [],
    callTool := fun _ _ => Except.ok "r",
    tools := [toolDefDemo] }

/-- A model endpoint that immediately produces a final answer. -/
def envFinalDemo : ExecEnv :=
  { generate := fun _ _ => Except.ok finalMsgDemo,
    parseArgs := fun _ => Except.ok [],
    callTool := fun _ _ => Except.ok "r",
    tools := [toolDefDemo] }

/-- A model endpoint that answers the tool-enabled generation but fails the
tool-free formatting pass (which is called with a nil tool list). -/
def envFormatDown : ExecEnv :=
  { generate := fun _ tools =>
      if tools.isEmpty then Except.error "format model down"
      else Except.ok finalMsgDemo,
    parseArgs := fun _ => Except.ok [],
    callTool := fun _ _ => Except.ok "r",
    tools := [toolDefDemo] }

/-- A model endpoint whose endpoint is unreachable: used only to build fully
concrete transcripts, never consulted in the demos below. -/
def userMsgDemo : ChatMessage :=
  { role := "user", content := "hi", toolCalls := [], toolCallID := "" }

/-! Helper lemmas about the embedding. -/

theorem lookupAssoc_map {α β : Type} (f : α → β) :
    ∀ (l : List (String × α)) (key : String),
    lookupAssoc (l.map fun p => (p.1, f p.2)) key = (lookupAssoc l key).map f
  | [], _ => rfl
  | (k, v) :: rest, key => by
      by_cases h : k = key <;>
        simp [lookupAssoc, h, lookupAssoc_map f rest key]

theorem lookupAssoc_setAssoc {α : Type} :
    ∀ (l : List (String × α)) (key : String) (v w : α),
    lookupAssoc l key = some w →
    lookupAssoc (setAssoc l key v) key = some v
  | [], key, v, w => by intro h; simp [lookupAssoc] at h
  | (k, x) :: rest, key, v, w => by
      intro h
      by_cases hk : k = key
      · subst hk
        have hs : setAssoc ((k, x) :: rest) k v = (k, v) :: setAssoc rest k v := by
          simp [setAssoc]
        rw [hs]
        simp [lookupAssoc]
      · have h2 : lookupAssoc rest key = some w := by
          simpa [lookupAssoc, hk] using h
        have hs : setAssoc ((k, x) :: rest) key v =
            (k, x) :: setAssoc rest key v := by
          simp [setAssoc, hk]
        rw [hs]
        have hl : lookupAssoc ((k, x) :: setAssoc rest key v) key =
            lookupAssoc (setAssoc rest key v) key := by
          simp [lookupAssoc, hk]
        rw [hl]
        exact lookupAssoc_setAssoc rest key v w h2

theorem executeToolCalls_eq (env : ExecEnv) :
    ∀ (tcs : List ToolCall) (messages : List ChatMessage),
    executeToolCalls env tcs messages =
      Except.ok (messages ++ tcs.map (toolResultMessage env))
  | [], messages => by simp [executeToolCalls]
  | call :: rest, messages => by
      cases h : env.parseArgs call.function.arguments with
      | error err =>
          simp [executeToolCalls, h, toolResultMessage, toolCallResult,
            executeToolCalls_eq env rest]
      | ok args =>
          cases h2 : env.callTool call.function.name args with
          | ok s =>
              simp [executeToolCalls, h, h2, toolResultMessage, toolCallResult,
                executeToolCalls_eq env rest]
          | error err =>
              simp [executeToolCalls, h, h2, toolResultMessage, toolCallResult,
                executeToolCalls_eq env rest]

theorem execLoop_always_tools (env : ExecEnv) (pp : String) (maxIter : Nat)
    (hgen : ∀ msgs, ∃ r, env.generate msgs env.tools = Except.ok r ∧
      r.toolCalls ≠ []) :
    ∀ (fuel i gen : Nat) (msgs : List ChatMessage),
    (execLoop env pp maxIter fuel i msgs gen).1 =
      Except.error (ExecError.iterationsExceeded maxIter) ∧
    (execLoop env pp maxIter fuel i msgs gen).2.1 = gen + fuel := by
  intro fuel
  induction fuel with
  | zero => intro i gen msgs; simp [execLoop]
  | succ f ih =>
      intro i gen msgs
      obtain ⟨r, hr, hne⟩ := hgen msgs
      have hemp : r.toolCalls.isEmpty = false := by
        cases hc : r.toolCalls with
        | nil => exact absurd hc hne
        | cons a l => rfl
      have hexec := executeToolCalls_eq env r.toolCalls (msgs ++ [r])
      have hrec := ih (i + 1) (gen + 1)
        (msgs ++ [r] ++ r.toolCalls.map (toolResultMessage env))
      simp only [execLoop, hr, hemp, hexec, Bool.false_eq_true, if_false]
      refine ⟨hrec.1, ?_⟩
      rw [hrec.2]
      omega

theorem execLoop_extends (env : ExecEnv) (pp : String) (maxIter : Nat) :
    ∀ (fuel i gen : Nat) (msgs : List ChatMessage),
    ∃ extra, (execLoop env pp maxIter fuel i msgs gen).2.2 = msgs ++ extra := by
  intro fuel
  induction fuel with
  | zero => intro i gen msgs; exact ⟨[], by simp [execLoop]⟩
  | succ f ih =>
      intro i gen msgs
      cases hr : env.generate msgs env.tools with
      | error err => exact ⟨[], by simp [execLoop, hr]⟩
      | ok r =>
          cases hemp : r.toolCalls.isEmpty with
          | true =>
              refine ⟨[r], ?_⟩
              simp only [execLoop, hr, hemp, if_true]
              split
              · split <;> rfl
              · rfl
          | false =>
              have hexec := executeToolCalls_eq env r.toolCalls (msgs ++ [r])
              obtain ⟨e2, he2⟩ := ih (i + 1) (gen + 1)
                (msgs ++ [r] ++ r.toolCalls.map (toolResultMessage env))
              refine ⟨[r] ++ r.toolCalls.map (toolResultMessage env) ++ e2, ?_⟩
              simp only [execLoop, hr, hemp, hexec, Bool.false_eq_true,
                if_false]
              rw [he2]
              simp [List.append_assoc]

theorem maxIter_toNat_pos (n : Int) :
    0 < (if n ≤ 0 then (5 : Int) else n).toNat := by
  by_cases h : n ≤ 0
  · simp [h]
  · simp only [h, if_false]
    omega

theorem lookupAssoc_healthCheck (m : MCPManager) (name : String) :
    lookupAssoc m.HealthCheck name =
      (lookupAssoc m.sessions name).map
        (fun s => !s.closed && decide (s.failCount < 5)) := by
  unfold MCPManager.HealthCheck
  exact lookupAssoc_map (fun s => !s.closed && decide (s.failCount < 5))
    m.sessions name

/-- Claim C1 as stated is false: the retry loop of `CallTool` executes
`sess.failCount++` after every failed attempt, so on the demo registry with a
transport failing both attempts the counter goes from 0 to 2, not to 1. -/
theorem C1_counterexample :
    (lookupAssoc ((mgrDemo.CallTool "search" alwaysFail 3).2.1).sessions
      "srv").map mcpSession.failCount = some 2 ∧
    sessDemo.failCount = 0 ∧ (2 : Nat) ≠ 0 + 1 :=
  ⟨rfl, rfl, by decide⟩

/-- Claim C1 (corrected): a tool invocation in which both attempts fail
increments the owning session's consecutive-failure counter by exactly 2 —
one per failed attempt — relative to its value before the invocation. -/
theorem C1_amended_theorem (m : MCPManager) (toolName sessName : String)
    (sess : mcpSession) (attemptResult : Nat → Except String String)
    (now : Nat) (e0 e1 : String)
    (hmap : lookupAssoc m.toolMap toolName = some sessName)
    (hsess : lookupAssoc m.sessions sessName = some sess)
    (hopen : sess.closed = false)
    (h0 : attemptResult 0 = Except.error e0)
    (h1 : attemptResult 1 = Except.error e1) :
    lookupAssoc ((m.CallTool toolName attemptResult now).2.1).sessions
      sessName = some { sess with failCount := sess.failCount + 2 } := by
  have hloop : (callToolLoop attemptResult now maxRetries 0 sess "").2.1 =
      { sess with failCount := sess.failCount + 2 } := by
    obtain ⟨nm, lu, fc, cl⟩ := sess
    simp [callToolLoop, maxRetries, h0, h1]
  have hcond : (sess.closed = true) = False := by simp [hopen]
  simp only [MCPManager.CallTool, hmap, hsess, hcond, if_false]
  rw [hloop]
  exact lookupAssoc_setAssoc m.sessions sessName _ sess hsess

/-- The only concrete input C1_amended_theorem needs: the demo registry, the
always-failing transport, both hypotheses discharged by evaluation. -/
theorem C1_amended_witness :
    lookupAssoc ((mgrDemo.CallTool "search" alwaysFail 3).2.1).sessions
      "srv" = some { sessDemo with failCount := sessDemo.failCount + 2 } :=
  C1_amended_theorem mgrDemo "search" "srv" sessDemo alwaysFail 3
    "dial timeout" "dial timeout" rfl rfl rfl rfl rfl

/-- Claim C2 as stated is false: on the demo registry, `Close` followed by
`CallTool` on the previously registered name `search` yields the not-found
error, not the session-closed error (the close clears the tool index). -/
theorem C2_counterexample :
    ((mgrDemo.Close (fun _ => none)).2.CallTool "search" alwaysOk 0).1 =
      Except.error (CallToolError.toolNotFound "search") ∧
    ((mgrDemo.Close (fun _ => none)).2.CallTool "search" alwaysOk 0).1 ≠
      Except.error (CallToolError.sessionClosed "search") := by
  have heval :
      ((mgrDemo.Close (fun _ => none)).2.CallTool "search" alwaysOk 0).1 =
        Except.error (CallToolError.toolNotFound "search") := rfl
  refine ⟨heval, ?_⟩
  rw [heval]
  simp

/-- Claim C2 (corrected): after `Close`, every subsequent `CallTool` — for
any tool name, registered before the close or not — returns the not-found
error, because the close clears the tool index together with the sessions. -/
theorem C2_amended_theorem (m : MCPManager)
    (closeErr : String → Option String) (toolName : String)
    (attemptResult : Nat → Except String String) (now : Nat) :
    ((m.Close closeErr).2.CallTool toolName attemptResult now).1 =
      Except.error (CallToolError.toolNotFound toolName) := rfl

/-- Claim C4 (confirmed): `CallTool` on a registered, open session makes at
most 2 attempts; it sleeps exactly once, 500 ms (= 1 × 500 ms), before the
second attempt, and not at all when the first attempt succeeds; and when both
attempts fail it returns the invocation-failed error carrying `maxRetries`
and wrapping the second (last) attempt's error. -/
theorem C4_retry_backoff (m : MCPManager) (toolName sessName : String)
    (sess : mcpSession) (attemptResult : Nat → Except String String)
    (now : Nat)
    (hmap : lookupAssoc m.toolMap toolName = some sessName)
    (hsess : lookupAssoc m.sessions sessName = some sess)
    (hopen : sess.closed = false) :
    (m.CallTool toolName attemptResult now).2.2.attempts ≤ 2 ∧
    (∀ s0, attemptResult 0 = Except.ok s0 →
      (m.CallTool toolName attemptResult now).2.2.sleeps = []) ∧
    (∀ e0, attemptResult 0 = Except.error e0 →
      (m.CallTool toolName attemptResult now).2.2.sleeps = [500]) ∧
    (∀ e0 e1, attemptResult 0 = Except.error e0 →
      attemptResult 1 = Except.error e1 →
      (m.CallTool toolName attemptResult now).1 =
        Except.error (CallToolError.invocationFailed 2 e1)) := by
  simp only [MCPManager.CallTool, hmap, hsess, hopen, Bool.false_eq_true,
    if_false]
  refine ⟨?_, ?_, ?_, ?_⟩
  · cases h0 : attemptResult 0 with
    | ok s => simp [callToolLoop, maxRetries, h0]
    | error e =>
        cases h1 : attemptResult 1 with
        | ok s => simp [callToolLoop, maxRetries, h0, h1]
        | error e2 => simp [callToolLoop, maxRetries, h0, h1]
  · intro s0 h0
    simp [callToolLoop, maxRetries, h0]
  · intro e0 h0
    cases h1 : attemptResult 1 with
    | ok s => simp [callToolLoop, maxRetries, h0, h1]
    | error e2 => simp [callToolLoop, maxRetries, h0, h1]
  · intro e0 e1 h0 h1
    simp [callToolLoop, maxRetries, h0, h1]

/-- C4 evaluated on the demo registry with the always-failing transport. -/
theorem C4_witness :
    (mgrDemo.CallTool "search" alwaysFail 0).2.2.attempts ≤ 2 ∧
    (mgrDemo.CallTool "search" alwaysFail 0).2.2.sleeps = [500] ∧
    (mgrDemo.CallTool "search" alwaysFail 0).1 =
      Except.error (CallToolError.invocationFailed 2 "dial timeout") := by
  have h := C4_retry_backoff mgrDemo "search" "srv" sessDemo alwaysFail 0
    rfl rfl rfl
  exact ⟨h.1, h.2.2.1 "dial timeout" rfl,
    h.2.2.2 "dial timeout" "dial timeout" rfl rfl⟩

/-- Claim C7 (confirmed): `HealthCheck` reports a provider healthy iff its
session is not closed and its failure count is strictly below 5; and after a
`CallTool` whose first attempt succeeds on an open session, that provider is
reported healthy (the success resets the counter to 0). -/
theorem C7_healthCheck (m : MCPManager) :
    (∀ name sess, lookupAssoc m.sessions name = some sess →
      (lookupAssoc m.HealthCheck name = some true ↔
        (sess.closed = false ∧ sess.failCount < 5))) ∧
    (∀ toolName sessName sess attemptResult now r,
      lookupAssoc m.toolMap toolName = some sessName →
      lookupAssoc m.sessions sessName = some sess →
      sess.closed = false →
      attemptResult 0 = Except.ok r →
      lookupAssoc ((m.CallTool toolName attemptResult now).2.1).HealthCheck
        sessName = some true) := by
  constructor
  · intro name sess hsess
    rw [lookupAssoc_healthCheck, hsess]
    simp [Bool.and_eq_true, decide_eq_true_iff, Bool.not_eq_true']
  · intro toolName sessName sess attemptResult now r hmap hsess hopen h0
    simp only [MCPManager.CallTool, hmap, hsess, hopen, Bool.false_eq_true,
      if_false]
    have hloop : (callToolLoop attemptResult now maxRetries 0 sess "").2.1 =
        { sess with lastUsed := now, failCount := 0 } := by
      simp [callToolLoop, maxRetries, h0]
    rw [lookupAssoc_healthCheck]
    simp only [hloop]
    rw [lookupAssoc_setAssoc m.sessions sessName _ sess hsess]
    simp [hopen]

/-- C7 evaluated on the registry whose session has 5 consecutive failures:
unhealthy before, healthy again after one successful invocation. -/
theorem C7_witness :
    ¬ lookupAssoc mgrDemo5.HealthCheck "srv" = some true ∧
    lookupAssoc ((mgrDemo5.CallTool "search" alwaysOk 7).2.1).HealthCheck
      "srv" = some true := by
  constructor
  · intro hc
    have h := ((C7_healthCheck mgrDemo5).1 "srv" sessDemo5 rfl).mp hc
    simp [sessDemo5] at h
  · exact (C7_healthCheck mgrDemo5).2 "search" "srv" sessDemo5 alwaysOk 7
      "result" rfl rfl rfl rfl

/-- Claim C8 (confirmed): `CallTool` on a name absent from the tool index
returns the not-found error and returns the registry completely unchanged
(every session's `failCount`, `lastUsed` and `closed` included), with no
attempt executed and no sleep performed. -/
theorem C8_notFound_no_touch (m : MCPManager) (toolName : String)
    (attemptResult : Nat → Except String String) (now : Nat)
    (h : lookupAssoc m.toolMap toolName = none) :
    m.CallTool toolName attemptResult now =
      (Except.error (CallToolError.toolNotFound toolName), m,
        { attempts := 0, sleeps := [] }) := by
  simp [MCPManager.CallTool, h]

/-- C8 evaluated on the demo registry with an unregistered name. -/
theorem C8_witness :
    mgrDemo.CallTool "nosuch" alwaysOk 0 =
      (Except.error (CallToolError.toolNotFound "nosuch"), mgrDemo,
        { attempts := 0, sleeps := [] }) :=
  C8_notFound_no_touch mgrDemo "nosuch" alwaysOk 0 (by decide)

theorem execLoop_first_final (env : ExecEnv) (maxIter f i gen : Nat)
    (msgs : List ChatMessage) (resp : ChatMessage)
    (hr : env.generate msgs env.tools = Except.ok resp)
    (hrt : resp.toolCalls = []) :
    execLoop env "" maxIter (f + 1) i msgs gen =
      (Except.ok resp.content, gen + 1, msgs ++ [resp]) := by
  simp [execLoop, hr, hrt]

/-- Claim C3 (confirmed): for a positive iteration bound and a model endpoint
whose every response (to the tool-enabled catalog) carries at least one tool
call, `ExecuteWithTools` makes exactly `maxIterations` generation calls and
returns the iterations-exceeded error. -/
theorem C3_bounded_iterations (env : ExecEnv) (msgs : List ChatMessage)
    (pp : String) (n : Int) (hn : 0 < n)
    (hgen : ∀ ms, ∃ r, env.generate ms env.tools = Except.ok r ∧
      r.toolCalls ≠ []) :
    (ExecuteWithTools env msgs n pp).1 =
      Except.error (ExecError.iterationsExceeded n.toNat) ∧
    (ExecuteWithTools env msgs n pp).2.1 = n.toNat := by
  have hmax : (if n ≤ 0 then (5 : Int) else n) = n := by
    rw [if_neg (by omega)]
  have h := execLoop_always_tools env pp n.toNat hgen n.toNat 0 0 msgs
  constructor
  · simpa [ExecuteWithTools, hmax] using h.1
  · simpa [ExecuteWithTools, hmax] using h.2

/-- C3 evaluated with `maxIterations = 3` and the always-tool-calling model. -/
theorem C3_witness :
    (ExecuteWithTools envAlwaysTool [userMsgDemo] 3 "").1 =
      Except.error (ExecError.iterationsExceeded 3) ∧
    (ExecuteWithTools envAlwaysTool [userMsgDemo] 3 "").2.1 = 3 := by
  have h := C3_bounded_iterations envAlwaysTool [userMsgDemo] "" 3
    (by decide) (fun ms => ⟨toolCallMsg, rfl, by decide⟩)
  simpa using h

/-- Claim C5 (confirmed): when the first generation yields a message with no
tool calls and no formatting instruction is set, `ExecuteWithTools` stops
after exactly one generation call (for any iteration bound) and returns that
message's content unchanged; the transcript is the input plus that turn. -/
theorem C5_single_iteration (env : ExecEnv) (msgs : List ChatMessage)
    (n : Int) (resp : ChatMessage)
    (hr : env.generate msgs env.tools = Except.ok resp)
    (hrt : resp.toolCalls = []) :
    ExecuteWithTools env msgs n "" =
      (Except.ok resp.content, 1, msgs ++ [resp]) := by
  have hpos := maxIter_toNat_pos n
  obtain ⟨f, hf⟩ : ∃ f, (if n ≤ 0 then (5 : Int) else n).toNat = f + 1 :=
    ⟨(if n ≤ 0 then (5 : Int) else n).toNat - 1, by omega⟩
  simp only [ExecuteWithTools]
  rw [hf]
  exact execLoop_first_final env (f + 1) f 0 0 msgs resp hr hrt

/-- C5 evaluated with the immediately-final model. -/
theorem C5_witness :
    ExecuteWithTools envFinalDemo [userMsgDemo] 2 "" =
      (Except.ok "done", 1, [userMsgDemo, finalMsgDemo]) := by
  have h := C5_single_iteration envFinalDemo [userMsgDemo] 2 finalMsgDemo
    rfl rfl
  simpa [finalMsgDemo] using h

/-- Claim C6 (confirmed): `executeToolCalls` never returns an error; it
appends exactly one tool-role message per tool call, in the order the calls
were issued, each carrying the issuing call's id; parse failures and
`CallTool` failures appear as error strings inside those messages. -/
theorem C6_toolResults (env : ExecEnv) (tcs : List ToolCall)
    (messages : List ChatMessage) :
    executeToolCalls env tcs messages =
      Except.ok (messages ++ tcs.map (toolResultMessage env)) ∧
    (tcs.map (toolResultMessage env)).map ChatMessage.toolCallID =
      tcs.map ToolCall.id ∧
    ∀ msg ∈ tcs.map (toolResultMessage env), msg.role = "tool" := by
  refine ⟨executeToolCalls_eq env tcs messages, ?_, ?_⟩
  · simp [toolResultMessage]
  · intro msg hm
    rw [List.mem_map] at hm
    obtain ⟨c, _, rfl⟩ := hm
    rfl

/-- C6 evaluated on one concrete tool call and transcript. -/
theorem C6_witness :
    executeToolCalls envAlwaysTool [toolCallDemo] [userMsgDemo] =
      Except.ok ([userMsgDemo] ++
        [toolCallDemo].map (toolResultMessage envAlwaysTool)) ∧
    (toolResultMessage envAlwaysTool toolCallDemo).role = "tool" := by
  have h := C6_toolResults envAlwaysTool [toolCallDemo] [userMsgDemo]
  exact ⟨h.1, h.2.2 _ (by simp)⟩

/-- Claim C9 (confirmed): when a formatting instruction is set, the final
model turn is tool-free with non-empty content, and the extra formatting
generation fails, `ExecuteWithTools` returns the unformatted content with no
error. -/
theorem C9_format_failure_nonfatal (env : ExecEnv) (msgs : List ChatMessage)
    (n : Int) (pp : String) (resp : ChatMessage) (e : String)
    (hr : env.generate msgs env.tools = Except.ok resp)
    (hrt : resp.toolCalls = [])
    (hc : resp.content ≠ "")
    (hpp : pp ≠ "")
    (hfmt : env.generate [formatRequest resp.content pp] [] =
      Except.error e) :
    ExecuteWithTools env msgs n pp =
      (Except.ok resp.content, 2, msgs ++ [resp]) := by
  have hpos := maxIter_toNat_pos n
  obtain ⟨f, hf⟩ : ∃ f, (if n ≤ 0 then (5 : Int) else n).toNat = f + 1 :=
    ⟨(if n ≤ 0 then (5 : Int) else n).toNat - 1, by omega⟩
  simp only [ExecuteWithTools]
  rw [hf]
  simp [execLoop, hr, hrt, hpp, hc, hfmt]

/-- C9 evaluated with the model whose tool-free formatting pass fails. -/
theorem C9_witness :
    ExecuteWithTools envFormatDown [userMsgDemo] 1 "plain text" =
      (Except.ok "done", 2, [userMsgDemo, finalMsgDemo]) := by
  have h := C9_format_failure_nonfatal envFormatDown [userMsgDemo] 1
    "plain text" finalMsgDemo "format model down" rfl rfl (by decide)
    (by decide) rfl
  simpa [finalMsgDemo] using h

/-- Claim C10 (confirmed): a non-positive iteration bound behaves exactly as
the default bound 5; and the run only ever appends to a private copy of the
transcript — the final transcript extends the caller's `initialMessages`,
which is itself never modified (the embedding is pure by construction). -/
theorem C10_default_and_copy (env : ExecEnv) (msgs : List ChatMessage)
    (pp : String) (n : Int) :
    (n ≤ 0 → ExecuteWithTools env msgs n pp = ExecuteWithTools env msgs 5 pp) ∧
    ∃ extra, (ExecuteWithTools env msgs n pp).2.2 = msgs ++ extra := by
  constructor
  · intro h
    simp [ExecuteWithTools, h]
  · simpa [ExecuteWithTools] using
      execLoop_extends env pp (if n ≤ 0 then (5 : Int) else n).toNat
        (if n ≤ 0 then (5 : Int) else n).toNat 0 0 msgs

/-- C10 evaluated at the bound −3 with the immediately-final model. -/
theorem C10_witness :
    ExecuteWithTools envFinalDemo [userMsgDemo] (-3) "" =
      ExecuteWithTools envFinalDemo [userMsgDemo] 5 "" ∧
    ∃ extra, (ExecuteWithTools envFinalDemo [userMsgDemo] (-3) "").2.2 =
      [userMsgDemo] ++ extra := by
  have h := C10_default_and_copy envFinalDemo [userMsgDemo] "" (-3)
  exact ⟨h.1 (by decide), h.2⟩

end GGBot
